import Mathlib

/-!
Verification development for the Deep Lynx result-processing pipeline
(`process.py`, `run.py`, `query.py`).  The Python code is shallowly
embedded: dictionaries with optional keys become structures with
`Option`-valued fields, Python `None`/strings/numbers become the
inductive `PyVal`, Python `float` arithmetic is modelled over `ℚ`,
and exceptions (`KeyError`, `ValueError`/`TypeError` from `float()`)
become `Except BuildError`.
-/

/-- Raw Python value appearing in a fetched entity field: `None`, a string,
or a number (ints and floats are both modelled as rationals). -/
inductive PyVal where
  | none : PyVal
  | str : String → PyVal
  | num : ℚ → PyVal
deriving DecidableEq, Repr

/-- Python truthiness: `None` is falsy, a string is truthy iff non-empty,
a number is truthy iff non-zero. -/
def truthy : PyVal → Bool
  | .none => false
  | .str s => !s.isEmpty
  | .num q => decide (q ≠ 0)

/-- Numeric value of a list of decimal digit characters. -/
def digitsVal (cs : List Char) : ℕ :=
  cs.foldl (fun acc c => 10 * acc + (c.toNat - 48)) 0

/-- Whitespace test used when modelling the leading/trailing stripping that
Python `float(string)` performs. -/
def isSpaceChar (c : Char) : Bool :=
  c = ' ' || c = '\t' || c = '\n' || c = '\r'

/-- Stripping of leading and trailing whitespace from a character list. -/
def trimChars (cs : List Char) : List Char :=
  ((cs.dropWhile isSpaceChar).reverse.dropWhile isSpaceChar).reverse

/-- Model of Python `float(string)` restricted to optionally signed plain
decimal literals (with optional fractional part), the forms this pipeline
receives; other strings fail to parse, modelling `ValueError`.  The result
is assembled with `mkRat` so that it is a single normalised rational. -/
def pyFloat? (s : String) : Option ℚ :=
  let cs := trimChars s.toList
  let signRest : Int × List Char :=
    match cs with
    | '-' :: t => (-1, t)
    | '+' :: t => (1, t)
    | t => (1, t)
  let rest := signRest.2
  let intPart := rest.takeWhile (·.isDigit)
  let rest2 := rest.dropWhile (·.isDigit)
  match rest2 with
  | [] =>
    if intPart.isEmpty then none
    else some (mkRat (signRest.1 * (digitsVal intPart : Int)) 1)
  | '.' :: frac =>
    if frac.all (·.isDigit) && !(intPart.isEmpty && frac.isEmpty) then
      some (mkRat
        (signRest.1 * ((digitsVal intPart * 10 ^ frac.length + digitsVal frac : ℕ) : Int))
        (10 ^ frac.length))
    else none
  | _ => none

/-- Model of Python `float(v)`: numbers convert to themselves, strings are
parsed, `None` fails (`TypeError`). `none` means the conversion raises. -/
def toFloat : PyVal → Option ℚ
  | .none => none
  | .str s => pyFloat? s
  | .num q => some q

/-- Raw Lot entity (`lot_data` in `process.py`): a dict whose keys may be
absent (`Option.none`) or present with any `PyVal` (possibly null). -/
structure LotData where
  hasP : Option PyVal
  HasEtc : Option PyVal
  HasB : Option PyVal
  HasEuC : Option PyVal
deriving DecidableEq, Repr

deriving instance DecidableEq for Except

/-- Errors the pipeline can raise while building records: `missingKey`
models Python `KeyError` from `lot_data['hasP']`; `conversionError` models
`ValueError`/`TypeError` from `float()` on the Lot (strict) path.  There is
deliberately no malformed-envelope constructor: the code raises none. -/
inductive BuildError where
  | missingKey : String → BuildError
  | conversionError : PyVal → BuildError
deriving DecidableEq, Repr

/-- The typed Lot record (`LotStats` dataclass in `process.py`). -/
structure LotStats where
  lot_id : PyVal
  has_etc : Option ℚ
  has_b : Option ℚ
  has_euc : Option ℚ
deriving DecidableEq, Repr

/-- Evaluation of `float(lot_data[k]) if lot_data.get(k) else None` for one
metric field: an absent key reads as Python `None` (falsy), a falsy value
yields `none`, a truthy value must convert or the build raises. -/
def coerceMetric (v : Option PyVal) : Except BuildError (Option ℚ) :=
  let raw := v.getD .none
  if truthy raw then
    match toFloat raw with
    | some q => .ok (some q)
    | none => .error (.conversionError raw)
  else .ok none

/-- Embedding of `LotStats.from_lot_data`: the three metric coercions are
evaluated first (in source order), then `lot_data['hasP']` is read, raising
`KeyError` when the key is absent. -/
def LotStats.from_lot_data (d : LotData) : Except BuildError LotStats :=
  match coerceMetric d.HasEtc with
  | .error e => .error e
  | .ok has_etc =>
    match coerceMetric d.HasB with
    | .error e => .error e
    | .ok has_b =>
      match coerceMetric d.HasEuC with
      | .error e => .error e
      | .ok has_euc =>
        match d.hasP with
        | Option.none => .error (.missingKey "hasP")
        | some v => .ok ⟨v, has_etc, has_b, has_euc⟩

/-- Python truthiness of an optional float (`None` and `0.0` are falsy). -/
def optTruthy : Option ℚ → Bool
  | Option.none => false
  | some q => decide (q ≠ 0)

/-- Embedding of `LotStats.has_values`:
`any([self.has_etc, self.has_b, self.has_euc])`. -/
def LotStats.has_values (s : LotStats) : Bool :=
  optTruthy s.has_etc || optTruthy s.has_b || optTruthy s.has_euc

/-- Dictionary produced by `LotStats.to_dict`. -/
structure LotDetail where
  lot_id : PyVal
  HasEtc : Option ℚ
  HasB : Option ℚ
  HasEuC : Option ℚ
deriving DecidableEq, Repr

/-- Embedding of `LotStats.to_dict`. -/
def LotStats.to_dict (s : LotStats) : LotDetail :=
  ⟨s.lot_id, s.has_etc, s.has_b, s.has_euc⟩

/-- Running sums and counts kept by the loop of `calculate_averages`. -/
structure RunningSums where
  etc_sum : ℚ
  etc_count : ℕ
  b_sum : ℚ
  b_count : ℕ
  euc_sum : ℚ
  euc_count : ℕ
deriving DecidableEq, Repr

/-- Update of one `(sum, count)` pair by one optional metric value
(the body of each `if lot.has_... is not None:` branch). -/
def addOpt (sc : ℚ × ℕ) : Option ℚ → ℚ × ℕ
  | some q => (sc.1 + q, sc.2 + 1)
  | Option.none => sc

/-- One iteration of the `for lot in lots:` loop of `calculate_averages`:
the three metrics are accumulated independently. -/
def sumsStep (acc : RunningSums) (lot : LotStats) : RunningSums :=
  let etc := addOpt (acc.etc_sum, acc.etc_count) lot.has_etc
  let b := addOpt (acc.b_sum, acc.b_count) lot.has_b
  let euc := addOpt (acc.euc_sum, acc.euc_count) lot.has_euc
  ⟨etc.1, etc.2, b.1, b.2, euc.1, euc.2⟩

/-- Dictionary returned by `calculate_averages`. -/
structure Averages where
  HasEtc_avg : Option ℚ
  HasB_avg : Option ℚ
  HasEuC_avg : Option ℚ
  total_lots : ℕ
  lots_with_values : ℕ
deriving DecidableEq, Repr

/-- Embedding of `calculate_averages`: sums and counts accumulated over the
list, each average defined only when its count is positive, `total_lots`
the input length, `lots_with_values` the number of lots whose `has_values`
is true. -/
def calculate_averages (lots : List LotStats) : Averages :=
  let s := lots.foldl sumsStep ⟨0, 0, 0, 0, 0, 0⟩
  { HasEtc_avg := if 0 < s.etc_count then some (s.etc_sum / (s.etc_count : ℚ)) else Option.none
    HasB_avg := if 0 < s.b_count then some (s.b_sum / (s.b_count : ℚ)) else Option.none
    HasEuC_avg := if 0 < s.euc_count then some (s.euc_sum / (s.euc_count : ℚ)) else Option.none
    total_lots := lots.length
    lots_with_values := lots.countP (·.has_values) }

/-- The `_record` sub-dictionary of a fetched Product. -/
structure RecordData where
  original_id : Option PyVal
deriving DecidableEq, Repr

/-- Raw Product entity: a dict whose keys may be absent (`Option.none`) or
present with any `PyVal`. -/
structure ProductData where
  _record : Option RecordData
  hasShape : Option PyVal
  HasComp : Option PyVal
  HasD : Option PyVal
  HasP : Option PyVal
deriving DecidableEq, Repr

/-- The `metatypes` level of a fetch-result envelope. -/
structure Metatypes where
  Product : Option (List ProductData)
  Lot : Option (List LotData)
deriving DecidableEq, Repr

/-- The `data` level of a fetch-result envelope. -/
structure DataEnvelope where
  metatypes : Option Metatypes
deriving DecidableEq, Repr

/-- A raw fetch result, with every envelope level possibly missing. -/
structure QueryResult where
  data : Option DataEnvelope
deriving DecidableEq, Repr

/-- Evaluation of
`result.get('data', {}).get('metatypes', {}).get('Product', [])`. -/
def getProducts (r : QueryResult) : List ProductData :=
  match r.data with
  | Option.none => []
  | some d =>
    match d.metatypes with
    | Option.none => []
    | some m => m.Product.getD []

/-- Evaluation of
`result.get('data', {}).get('metatypes', {}).get('Lot', [])`. -/
def getLots (r : QueryResult) : List LotData :=
  match r.data with
  | Option.none => []
  | some d =>
    match d.metatypes with
    | Option.none => []
    | some m => m.Lot.getD []

/-- One entry of the product detail list. -/
structure ProductDetail where
  id : PyVal
  hasShape : PyVal
  HasComp : PyVal
  HasD : PyVal
  HasP : PyVal
deriving DecidableEq, Repr

/-- Evaluation of the product-detail dict built in `process_results`:
`id` is `product.get('_record', {}).get('original_id', 'Unknown')`, the
other fields are plain `.get` reads (absent keys read as Python `None`). -/
def productDetail (p : ProductData) : ProductDetail :=
  { id :=
      match p._record with
      | Option.none => .str "Unknown"
      | some r =>
        match r.original_id with
        | Option.none => .str "Unknown"
        | some v => v
    hasShape := p.hasShape.getD .none
    HasComp := p.HasComp.getD .none
    HasD := p.HasD.getD .none
    HasP := p.HasP.getD .none }

/-- One iteration of the `HasD` accumulation in `process_results`: a falsy
value is skipped, a truthy convertible value is added, and a truthy
non-convertible value is skipped with a warning (the lenient policy). -/
def hasDStep (acc : ℚ × ℕ) (p : ProductData) : ℚ × ℕ :=
  let v := p.HasD.getD .none
  if truthy v then
    match toFloat v with
    | some q => (acc.1 + q, acc.2 + 1)
    | Option.none => acc
  else acc

/-- The lot-building loop of `process_results`: for each result, the `Lot`
list is extracted; an empty list contributes nothing, otherwise a record is
built from the first entity only, and a build error aborts the loop. -/
def buildLots : List QueryResult → Except BuildError (List LotStats)
  | [] => .ok []
  | r :: rs =>
    match getLots r with
    | [] => buildLots rs
    | d :: _ =>
      match LotStats.from_lot_data d with
      | .error e => .error e
      | .ok lot =>
        match buildLots rs with
        | .error e => .error e
        | .ok rest => .ok (lot :: rest)

/-- The final report dictionary returned by `process_results`. -/
structure Report where
  products : ℕ
  product_details : List ProductDetail
  product_averages_HasD : Option ℚ
  lots_total : ℕ
  lots_with_values : ℕ
  lot_averages_HasEtc : Option ℚ
  lot_averages_HasB : Option ℚ
  lot_averages_HasEuC : Option ℚ
  lot_details : List LotDetail
deriving DecidableEq, Repr

/-- Embedding of `process_results`.  The product side (details and lenient
`HasD` average) is computed first; the lot loop may raise, in which case the
exception propagates out of the function (the surrounding `except` clause
logs and re-raises), so no report is produced. -/
def process_results (product_result : QueryResult) (lot_results : List QueryResult) :
    Except BuildError Report :=
  let products := getProducts product_result
  let hasD := products.foldl hasDStep (0, 0)
  let has_d_avg : Option ℚ :=
    if 0 < hasD.2 then some (hasD.1 / (hasD.2 : ℚ)) else Option.none
  match buildLots lot_results with
  | .error e => .error e
  | .ok lots =>
    let stats := calculate_averages lots
    .ok
      { products := products.length
        product_details := products.map productDetail
        product_averages_HasD := has_d_avg
        lots_total := stats.total_lots
        lots_with_values := stats.lots_with_values
        lot_averages_HasEtc := stats.HasEtc_avg
        lot_averages_HasB := stats.HasB_avg
        lot_averages_HasEuC := stats.HasEuC_avg
        lot_details := lots.map LotStats.to_dict }

/-- The body of `extract_has_p_values` from `run.py` as a function of the
extracted product list: truthy `HasP` values are appended in order,
products without one are skipped (with a warning). -/
def extractKeys (products : List ProductData) : List PyVal :=
  products.foldl
    (fun acc p =>
      let v := p.HasP.getD PyVal.none
      if truthy v then acc ++ [v] else acc)
    []

/-- Embedding of `extract_has_p_values` from `run.py`. -/
def extract_has_p_values (product_result : QueryResult) : List PyVal :=
  extractKeys (getProducts product_result)

/-- Embedding of the `list(dict.fromkeys(has_p_values))` deduplication in
`query_lots` (`query.py`): keep the first occurrence of each key. -/
def dedupFirst (xs : List PyVal) : List PyVal :=
  xs.foldl (fun acc x => if x ∈ acc then acc else acc ++ [x]) []

/-- Arithmetic mean of a list of rationals, absent when the list is empty.
This is the spec-side formula ("average = sum/count when count > 0, else
absent") that the implementation is compared against. -/
def specMean (vs : List ℚ) : Option ℚ :=
  if 0 < vs.length then some (vs.sum / (vs.length : ℚ)) else Option.none

/-- Join key read from one Product, as an optional value: the truthy `HasP`
value if there is one, otherwise `none` (product skipped). -/
def keyOf (p : ProductData) : Option PyVal :=
  let v := p.HasP.getD PyVal.none
  if truthy v then some v else Option.none

/-- First-occurrence deduplication as the spec words it: keep each element
the first time it appears, drop every later duplicate.  This is the
spec-side definition that `dedupFirst` is compared against. -/
def specFirstOccurDedup : List PyVal → List PyVal
  | [] => []
  | x :: xs => x :: specFirstOccurDedup (xs.filter (fun y => y ≠ x))
termination_by l => l.length
decreasing_by
  simp only [List.length_cons]
  exact Nat.lt_succ_of_le (List.length_filter_le _ _)

/-- Lot-record building over a plain list of raw Lot entities; `buildLots`
is shown equal to this composed with taking the head entity of each
non-empty result. -/
def buildAll : List LotData → Except BuildError (List LotStats)
  | [] => .ok []
  | d :: ds =>
    match LotStats.from_lot_data d with
    | .error e => .error e
    | .ok lot =>
      match buildAll ds with
      | .error e => .error e
      | .ok rest => .ok (lot :: rest)

/-- A fetch result whose envelope nesting is absent: either the `data` key
is missing, or it is present but the `metatypes` key is missing. -/
def noEnvelope (r : QueryResult) : Prop :=
  r.data = Option.none ∨ ∃ d, r.data = some d ∧ d.metatypes = Option.none

/-- Contribution of one Product to the `HasD` average: its `HasD` value
when that is present, truthy and convertible, and nothing otherwise
(absent, falsy, or malformed values are all skipped). -/
def hasDValue (p : ProductData) : Option ℚ :=
  if truthy (p.HasD.getD .none) then toFloat (p.HasD.getD .none) else Option.none

/-- Fetch result with no `data` key at all. -/
def emptyResult : QueryResult := ⟨Option.none⟩

/-- Fetch result wrapping a list of Lot entities in a full envelope. -/
def wrapLotList (ds : List LotData) : QueryResult :=
  ⟨some ⟨some ⟨Option.none, some ds⟩⟩⟩

/-- Fetch result wrapping a single Lot entity in a full envelope. -/
def wrapLot (d : LotData) : QueryResult := wrapLotList [d]

/-- Fetch result wrapping a list of Product entities in a full envelope. -/
def wrapProducts (ps : List ProductData) : QueryResult :=
  ⟨some ⟨some ⟨some ps, Option.none⟩⟩⟩

/-- Lot entity whose `HasEtc` field holds the raw string `"0"`. -/
def lotZeroEtc : LotData :=
  ⟨some (.str "L1"), some (.str "0"), Option.none, Option.none⟩

/-- The record that the builder produces from `lotZeroEtc`. -/
def statsZeroEtc : LotStats := ⟨.str "L1", some 0, Option.none, Option.none⟩

/-- Lot entity whose `HasB` field holds the raw string `"0"`. -/
def lotZeroB : LotData :=
  ⟨some (.str "L3"), Option.none, some (.str "0"), Option.none⟩

/-- The record that the builder produces from `lotZeroB`. -/
def statsZeroB : LotStats := ⟨.str "L3", Option.none, some 0, Option.none⟩

/-- Lot entity whose `HasEuC` field holds the raw string `"0"`. -/
def lotZeroEuC : LotData :=
  ⟨some (.str "L4"), Option.none, Option.none, some (.str "0")⟩

/-- The record that the builder produces from `lotZeroEuC`. -/
def statsZeroEuC : LotStats := ⟨.str "L4", Option.none, Option.none, some 0⟩

/-- Lot entity with no `hasP` key. -/
def lotNoKey : LotData := ⟨Option.none, Option.none, Option.none, Option.none⟩

/-- Well-formed Lot entity used after the failing one. -/
def lotGood : LotData :=
  ⟨some (.str "L2"), some (.str "2"), Option.none, Option.none⟩

/-- Lot entity with two metric-free entities in one result (first is kept). -/
def lotFirst : LotData := ⟨some (.str "W1"), Option.none, Option.none, Option.none⟩

/-- Second Lot entity in the same result as `lotFirst`; it is ignored. -/
def lotSecond : LotData := ⟨some (.str "W2"), Option.none, Option.none, Option.none⟩

/-- Lot inputs for the first-entity-only scenario: one two-entity result
followed by one zero-entity result. -/
def lotResultsC6 : List QueryResult := [wrapLotList [lotFirst, lotSecond], wrapLotList []]

/-- Report produced from no products and `lotResultsC6`. -/
def reportC6 : Report :=
  { products := 0
    product_details := []
    product_averages_HasD := Option.none
    lots_total := 1
    lots_with_values := 0
    lot_averages_HasEtc := Option.none
    lot_averages_HasB := Option.none
    lot_averages_HasEuC := Option.none
    lot_details := [⟨.str "W1", Option.none, Option.none, Option.none⟩] }

/-- Product with a convertible `HasD` value. -/
def prodGoodD : ProductData :=
  ⟨Option.none, Option.none, Option.none, some (.str "10"), Option.none⟩

/-- Product with a truthy but malformed `HasD` value. -/
def prodBadD : ProductData :=
  ⟨Option.none, Option.none, Option.none, some (.str "x"), Option.none⟩

/-- Product with no `HasD` key at all. -/
def prodNoD : ProductData :=
  ⟨Option.none, Option.none, Option.none, Option.none, Option.none⟩

/-- Product result mixing convertible, malformed, and absent `HasD`. -/
def prodResultC7 : QueryResult := wrapProducts [prodGoodD, prodBadD, prodNoD]

/-- Report produced from `prodResultC7` and no lot results. -/
def reportC7 : Report :=
  { products := 3
    product_details :=
      [⟨.str "Unknown", .none, .none, .str "10", .none⟩,
       ⟨.str "Unknown", .none, .none, .str "x", .none⟩,
       ⟨.str "Unknown", .none, .none, .none, .none⟩]
    product_averages_HasD := some 10
    lots_total := 0
    lots_with_values := 0
    lot_averages_HasEtc := Option.none
    lot_averages_HasB := Option.none
    lot_averages_HasEuC := Option.none
    lot_details := [] }

/-- Lot entity with a truthy, non-convertible `HasEtc` value. -/
def lotBadEtc : LotData :=
  ⟨some (.str "LB"), some (.str "x"), Option.none, Option.none⟩

/-- Metric-free record named A. -/
def statsA : LotStats := ⟨.str "A", Option.none, Option.none, Option.none⟩

/-- Metric-free record named B. -/
def statsB : LotStats := ⟨.str "B", Option.none, Option.none, Option.none⟩

/-- Product whose `_record` maps `original_id` to Python `None`. -/
def prodNullId : ProductData :=
  ⟨some ⟨some PyVal.none⟩, Option.none, Option.none, Option.none, Option.none⟩

/-- Product with no `_record` key at all. -/
def prodNoRecord : ProductData :=
  ⟨Option.none, Option.none, Option.none, Option.none, Option.none⟩

/-- Product whose `_record` is present but lacks the `original_id` key. -/
def prodNoId : ProductData :=
  ⟨some ⟨Option.none⟩, Option.none, Option.none, Option.none, Option.none⟩

/-- Product result containing only `prodNullId`. -/
def prodResultC10 : QueryResult := wrapProducts [prodNullId]

/-- Report produced from `prodResultC10` and no lot results. -/
def reportC10 : Report :=
  { products := 1
    product_details := [⟨PyVal.none, .none, .none, .none, .none⟩]
    product_averages_HasD := Option.none
    lots_total := 0
    lots_with_values := 0
    lot_averages_HasEtc := Option.none
    lot_averages_HasB := Option.none
    lot_averages_HasEuC := Option.none
    lot_details := [] }

lemma addOpt_fst (sc : ℚ × ℕ) (v : Option ℚ) :
    (addOpt sc v).1 = sc.1 + (v.toList).sum := by
  cases v <;> simp [addOpt]

lemma addOpt_snd (sc : ℚ × ℕ) (v : Option ℚ) :
    (addOpt sc v).2 = sc.2 + (v.toList).length := by
  cases v <;> simp [addOpt]

lemma foldl_sums_etc (lots : List LotStats) (acc : RunningSums) :
    (lots.foldl sumsStep acc).etc_sum
        = acc.etc_sum + (lots.filterMap (·.has_etc)).sum ∧
      (lots.foldl sumsStep acc).etc_count
        = acc.etc_count + (lots.filterMap (·.has_etc)).length := by
  induction lots generalizing acc with
  | nil => simp
  | cons x xs ih =>
    have h := ih (sumsStep acc x)
    cases hx : x.has_etc <;>
      simp_all [List.filterMap_cons, hx, sumsStep, addOpt, add_assoc, Nat.add_comm]

lemma foldl_sums_b (lots : List LotStats) (acc : RunningSums) :
    (lots.foldl sumsStep acc).b_sum
        = acc.b_sum + (lots.filterMap (·.has_b)).sum ∧
      (lots.foldl sumsStep acc).b_count
        = acc.b_count + (lots.filterMap (·.has_b)).length := by
  induction lots generalizing acc with
  | nil => simp
  | cons x xs ih =>
    have h := ih (sumsStep acc x)
    cases hx : x.has_b <;>
      simp_all [List.filterMap_cons, hx, sumsStep, addOpt, add_assoc, Nat.add_comm]

lemma foldl_sums_euc (lots : List LotStats) (acc : RunningSums) :
    (lots.foldl sumsStep acc).euc_sum
        = acc.euc_sum + (lots.filterMap (·.has_euc)).sum ∧
      (lots.foldl sumsStep acc).euc_count
        = acc.euc_count + (lots.filterMap (·.has_euc)).length := by
  induction lots generalizing acc with
  | nil => simp
  | cons x xs ih =>
    have h := ih (sumsStep acc x)
    cases hx : x.has_euc <;>
      simp_all [List.filterMap_cons, hx, sumsStep, addOpt, add_assoc, Nat.add_comm]

/-- Closed form of `calculate_averages`: each average is the `specMean` of
the non-absent values of its metric, `total_lots` is the input length and
`lots_with_values` counts the records with a truthy metric. -/
lemma calculate_averages_eq (lots : List LotStats) :
    calculate_averages lots =
      { HasEtc_avg := specMean (lots.filterMap (·.has_etc))
        HasB_avg := specMean (lots.filterMap (·.has_b))
        HasEuC_avg := specMean (lots.filterMap (·.has_euc))
        total_lots := lots.length
        lots_with_values := lots.countP (·.has_values) } := by
  have he := foldl_sums_etc lots ⟨0, 0, 0, 0, 0, 0⟩
  have hb := foldl_sums_b lots ⟨0, 0, 0, 0, 0, 0⟩
  have hu := foldl_sums_euc lots ⟨0, 0, 0, 0, 0, 0⟩
  simp only [calculate_averages, specMean, he.1, he.2, hb.1, hb.2, hu.1, hu.2]
  simp

/-- The lot loop of `process_results` uses exactly the head entity of each
non-empty `Lot` list: it equals `buildAll` on those heads. -/
lemma buildLots_eq_buildAll (lrs : List QueryResult) :
    buildLots lrs = buildAll (lrs.filterMap (fun r => (getLots r).head?)) := by
  induction lrs with
  | nil => rfl
  | cons r rs ih =>
    cases hr : getLots r with
    | nil => simp [buildLots, hr, List.filterMap_cons, ih]
    | cons d tl => simp [buildLots, buildAll, hr, List.filterMap_cons, ih]

/-- Inversion of a successful `process_results` run: the report fields are
determined by the product list and the successfully built lot records. -/
lemma process_results_ok {pr : QueryResult} {lrs : List QueryResult} {rep : Report}
    (h : process_results pr lrs = .ok rep) :
    ∃ lots, buildLots lrs = .ok lots ∧
      rep =
        { products := (getProducts pr).length
          product_details := (getProducts pr).map productDetail
          product_averages_HasD :=
            (if 0 < ((getProducts pr).foldl hasDStep (0, 0)).2 then
              some (((getProducts pr).foldl hasDStep (0, 0)).1
                / (((getProducts pr).foldl hasDStep (0, 0)).2 : ℚ))
            else Option.none)
          lots_total := (calculate_averages lots).total_lots
          lots_with_values := (calculate_averages lots).lots_with_values
          lot_averages_HasEtc := (calculate_averages lots).HasEtc_avg
          lot_averages_HasB := (calculate_averages lots).HasB_avg
          lot_averages_HasEuC := (calculate_averages lots).HasEuC_avg
          lot_details := lots.map LotStats.to_dict } := by
  simp only [process_results] at h
  cases hb : buildLots lrs with
  | error e => rw [hb] at h; exact absurd h (by simp)
  | ok lots =>
    rw [hb] at h
    simp only [Except.ok.injEq] at h
    exact ⟨lots, rfl, h.symm⟩

/-- A failing `process_results` run fails exactly when the lot loop fails,
with the same error; the product side never contributes an error. -/
lemma process_results_error {pr : QueryResult} {lrs : List QueryResult} {e : BuildError} :
    process_results pr lrs = .error e ↔ buildLots lrs = .error e := by
  simp only [process_results]
  cases hb : buildLots lrs <;> simp

/-- The key-collecting loop of `extract_has_p_values` appends exactly the
truthy `HasP` values, in order. -/
lemma extractKeys_eq (products : List ProductData) :
    extractKeys products = products.filterMap keyOf := by
  suffices h : ∀ (l : List ProductData) (acc : List PyVal),
      l.foldl
        (fun acc p =>
          let v := p.HasP.getD PyVal.none
          if truthy v then acc ++ [v] else acc)
        acc = acc ++ l.filterMap keyOf by
    simpa using h products []
  intro l
  induction l with
  | nil => simp
  | cons p ps ih =>
    intro acc
    by_cases hp : truthy (p.HasP.getD PyVal.none) <;>
      simp [keyOf, hp, List.filterMap_cons, ih]

lemma mem_specFirstOccurDedup {a : PyVal} :
    ∀ {l : List PyVal}, a ∈ specFirstOccurDedup l → a ∈ l := by
  intro l
  induction l using specFirstOccurDedup.induct with
  | case1 => simp [specFirstOccurDedup]
  | case2 x xs ih =>
    intro h
    rw [specFirstOccurDedup] at h
    rcases List.mem_cons.1 h with h1 | h2
    · exact h1 ▸ List.mem_cons_self _ _
    · exact List.mem_cons_of_mem _ (List.mem_of_mem_filter (ih h2))

lemma nodup_specFirstOccurDedup : ∀ (l : List PyVal), (specFirstOccurDedup l).Nodup := by
  intro l
  induction l using specFirstOccurDedup.induct with
  | case1 => simp [specFirstOccurDedup]
  | case2 x xs ih =>
    rw [specFirstOccurDedup]
    refine List.nodup_cons.2 ⟨fun hx => ?_, ih⟩
    have := List.of_mem_filter (mem_specFirstOccurDedup hx)
    simp at this

lemma filter_notmem_append (xs acc : List PyVal) (x : PyVal) :
    xs.filter (fun y => decide (y ∉ acc ++ [x]))
      = (xs.filter (fun y => decide (y ∉ acc))).filter (fun y => y ≠ x) := by
  rw [List.filter_filter]
  apply List.filter_congr
  intro y _
  by_cases h1 : y ∈ acc <;> by_cases h2 : y = x <;> simp [h1, h2]

/-- The `dict.fromkeys` loop keeps the first occurrence of each key. -/
lemma dedupFirst_eq_spec (xs : List PyVal) :
    dedupFirst xs = specFirstOccurDedup xs := by
  suffices h : ∀ (l acc : List PyVal),
      l.foldl (fun acc x => if x ∈ acc then acc else acc ++ [x]) acc
        = acc ++ specFirstOccurDedup (l.filter (fun y => decide (y ∉ acc))) by
    have h0 := h xs []
    simpa [dedupFirst] using h0
  intro l
  induction l with
  | nil => simp [specFirstOccurDedup]
  | cons x ls ih =>
    intro acc
    by_cases hx : x ∈ acc
    · have hfilter : (x :: ls).filter (fun y => decide (y ∉ acc))
          = ls.filter (fun y => decide (y ∉ acc)) := by
        simp [List.filter_cons, hx]
      simp [List.foldl_cons, hx, ih, hfilter]
    · have hfilter : (x :: ls).filter (fun y => decide (y ∉ acc))
          = x :: ls.filter (fun y => decide (y ∉ acc)) := by
        simp [List.filter_cons, hx]
      rw [List.foldl_cons, if_neg hx, ih, hfilter, specFirstOccurDedup,
        ← filter_notmem_append, List.append_assoc, List.singleton_append]

lemma getProducts_of_noEnvelope {r : QueryResult} (h : noEnvelope r) :
    getProducts r = [] := by
  rcases h with h | ⟨d, hd, hm⟩
  · simp [getProducts, h]
  · simp [getProducts, hd, hm]

lemma getLots_of_noEnvelope {r : QueryResult} (h : noEnvelope r) :
    getLots r = [] := by
  rcases h with h | ⟨d, hd, hm⟩
  · simp [getLots, h]
  · simp [getLots, hd, hm]

/-- Inversion of a successful record build: each stored metric is the
result of its coercion, and the `hasP` key was present and became the id. -/
lemma from_lot_data_ok {d : LotData} {s : LotStats}
    (h : LotStats.from_lot_data d = .ok s) :
    coerceMetric d.HasEtc = .ok s.has_etc ∧
    coerceMetric d.HasB = .ok s.has_b ∧
    coerceMetric d.HasEuC = .ok s.has_euc ∧
    d.hasP = some s.lot_id := by
  rw [LotStats.from_lot_data] at h
  cases he : coerceMetric d.HasEtc with
  | error e => rw [he] at h; simp at h
  | ok a =>
    rw [he] at h
    cases hb : coerceMetric d.HasB with
    | error e => rw [hb] at h; simp at h
    | ok b =>
      rw [hb] at h
      cases hu : coerceMetric d.HasEuC with
      | error e => rw [hu] at h; simp at h
      | ok u =>
        rw [hu] at h
        cases hp : d.hasP with
        | none => rw [hp] at h; simp at h
        | some v =>
          rw [hp] at h
          simp only [Except.ok.injEq] at h
          subst h
          exact ⟨rfl, rfl, rfl, rfl⟩

/-- When the whole lot loop succeeds, the head entity of every non-empty
result was built successfully. -/
lemma buildLots_ok_heads :
    ∀ {lrs : List QueryResult} {lots : List LotStats}, buildLots lrs = .ok lots →
      ∀ lr ∈ lrs, ∀ (d : LotData) (tl : List LotData), getLots lr = d :: tl →
        ∃ s, LotStats.from_lot_data d = .ok s := by
  intro lrs
  induction lrs with
  | nil =>
    intro lots _ lr hlr
    simp at hlr
  | cons r rs ih =>
    intro lots h lr hlr d tl hd
    rcases List.mem_cons.1 hlr with rfl | hmem
    · simp only [buildLots, hd] at h
      cases hf : LotStats.from_lot_data d with
      | error e => rw [hf] at h; simp at h
      | ok s => exact ⟨s, rfl⟩
    · cases hr : getLots r with
      | nil =>
        simp only [buildLots, hr] at h
        exact ih h lr hmem d tl hd
      | cons d0 tl0 =>
        cases hf0 : LotStats.from_lot_data d0 with
        | error e => simp [buildLots, hr, hf0] at h
        | ok s0 =>
          simp only [buildLots, hr, hf0] at h
          cases hbr : buildLots rs with
          | error e => rw [hbr] at h; simp at h
          | ok rest => exact ih hbr lr hmem d tl hd

example : truthy (.str "0") = true := by decide
example : LotStats.from_lot_data ⟨some (.str "L1"), some (.str "0"), Option.none, Option.none⟩
    = .ok ⟨.str "L1", some 0, Option.none, Option.none⟩ := by decide
example : LotStats.from_lot_data ⟨Option.none, Option.none, Option.none, Option.none⟩
    = .error (.missingKey "hasP") := by decide
example : pyFloat? "2.5" = some (mkRat 5 2) := by decide
example : pyFloat? "2" = some 2 := by decide
example : pyFloat? "abc" = Option.none := by decide

/-- Claim C1, as stated, is false: for a Lot entity whose `HasEtc` holds the
raw string `"0"`, the builder does NOT treat the metric as absent.  The
string `"0"` is non-empty, hence truthy, so `float("0") = 0.0` is stored:
it contributes 0.0 to the sum and 1 to the count of the `HasEtc` average
(which becomes `some 0`, not absent).  Only `has_values` sees it as falsy. -/
theorem claim_C1_counterexample :
    LotStats.from_lot_data lotZeroEtc = .ok statsZeroEtc ∧
    statsZeroEtc.has_etc = some 0 ∧
    statsZeroEtc.has_etc ≠ Option.none ∧
    (calculate_averages [statsZeroEtc]).HasEtc_avg = some 0 ∧
    (calculate_averages [statsZeroEtc]).HasEtc_avg ≠ Option.none ∧
    statsZeroEtc.has_values = false := by
  refine ⟨by decide, by decide, by decide, ?_, ?_, by decide⟩ <;>
    simp [calculate_averages_eq, statsZeroEtc, specMean]

/-- Claim C1 (amended): for every raw Lot entity whose metric field
`HasEtc` has the raw string value `"0"` - and likewise for `HasB` and for
`HasEuC` - the built record stores that metric as the value 0.0, not as
absent: it contributes 0.0 to the metric's sum and 1 to its count, so the
average over such a record is `some 0`, not absent; only `hasAnyValue`
still ignores the metric, because Python truthiness sees `0.0` as falsy. -/
theorem claim_C1_amended :
    (∀ (d : LotData) (s : LotStats),
      LotStats.from_lot_data d = .ok s → d.HasEtc = some (PyVal.str "0") →
        s.has_etc = some 0 ∧
        (calculate_averages [s]).HasEtc_avg = some 0 ∧
        s.has_values = (optTruthy s.has_b || optTruthy s.has_euc)) ∧
    (∀ (d : LotData) (s : LotStats),
      LotStats.from_lot_data d = .ok s → d.HasB = some (PyVal.str "0") →
        s.has_b = some 0 ∧
        (calculate_averages [s]).HasB_avg = some 0 ∧
        s.has_values = (optTruthy s.has_etc || optTruthy s.has_euc)) ∧
    (∀ (d : LotData) (s : LotStats),
      LotStats.from_lot_data d = .ok s → d.HasEuC = some (PyVal.str "0") →
        s.has_euc = some 0 ∧
        (calculate_averages [s]).HasEuC_avg = some 0 ∧
        s.has_values = (optTruthy s.has_etc || optTruthy s.has_b)) := by
  have hc : coerceMetric (some (PyVal.str "0")) = .ok (some 0) := by decide
  refine ⟨?_, ?_, ?_⟩ <;> intro d s hok hz
  · have he := (from_lot_data_ok hok).1
    rw [hz, hc] at he
    have hse : s.has_etc = some 0 := (Except.ok.inj he).symm
    refine ⟨hse, ?_, ?_⟩
    · simp [calculate_averages_eq, specMean, hse]
    · simp [LotStats.has_values, hse, optTruthy]
  · have hb := (from_lot_data_ok hok).2.1
    rw [hz, hc] at hb
    have hsb : s.has_b = some 0 := (Except.ok.inj hb).symm
    refine ⟨hsb, ?_, ?_⟩
    · simp [calculate_averages_eq, specMean, hsb]
    · simp [LotStats.has_values, hsb, optTruthy]
  · have hu := (from_lot_data_ok hok).2.2.1
    rw [hz, hc] at hu
    have hsu : s.has_euc = some 0 := (Except.ok.inj hu).symm
    refine ⟨hsu, ?_, ?_⟩
    · simp [calculate_averages_eq, specMean, hsu]
    · simp [LotStats.has_values, hsu, optTruthy]

/-- Concrete instances of the amended claim C1, one per metric field. -/
theorem claim_C1_amended_witness :
    (statsZeroEtc.has_etc = some 0 ∧
      (calculate_averages [statsZeroEtc]).HasEtc_avg = some 0 ∧
      statsZeroEtc.has_values
        = (optTruthy statsZeroEtc.has_b || optTruthy statsZeroEtc.has_euc)) ∧
    (statsZeroB.has_b = some 0 ∧
      (calculate_averages [statsZeroB]).HasB_avg = some 0 ∧
      statsZeroB.has_values
        = (optTruthy statsZeroB.has_etc || optTruthy statsZeroB.has_euc)) ∧
    (statsZeroEuC.has_euc = some 0 ∧
      (calculate_averages [statsZeroEuC]).HasEuC_avg = some 0 ∧
      statsZeroEuC.has_values
        = (optTruthy statsZeroEuC.has_etc || optTruthy statsZeroEuC.has_b)) :=
  ⟨claim_C1_amended.1 lotZeroEtc statsZeroEtc (by decide) rfl,
   claim_C1_amended.2.1 lotZeroB statsZeroB (by decide) rfl,
   claim_C1_amended.2.2 lotZeroEuC statsZeroEuC (by decide) rfl⟩

/-- Claim C2, as stated, is false: a Lot entity lacking `hasP` raises
`KeyError`, and `process_results` re-raises it, so the remaining lot result
(here a well-formed one) is not processed and no report is produced. -/
theorem claim_C2_counterexample :
    process_results emptyResult [wrapLot lotNoKey, wrapLot lotGood]
      = .error (.missingKey "hasP") := by decide

/-- Claim C2 (amended): for every Lot entity that lacks its identity field
`hasP`, building that record always fails - with the `KeyError` from
reading `hasP` whenever the three metric coercions succeed (a truthy
non-convertible metric value raises its `ValueError` first, since the
coercions are evaluated before `hasP` is read) - and the failure is not
recovered per record: whenever any lot result's first entity lacks `hasP`,
`process_results` raises and no report is produced. -/
theorem claim_C2_amended :
    (∀ d : LotData, d.hasP = Option.none →
      ∃ e, LotStats.from_lot_data d = .error e) ∧
    (∀ (d : LotData) (he hb hu : Option ℚ), d.hasP = Option.none →
      coerceMetric d.HasEtc = .ok he → coerceMetric d.HasB = .ok hb →
      coerceMetric d.HasEuC = .ok hu →
        LotStats.from_lot_data d = .error (.missingKey "hasP")) ∧
    (∀ (pr : QueryResult) (lrs : List QueryResult) (rep : Report),
      (∃ lr ∈ lrs, ∃ (d : LotData) (tl : List LotData),
        getLots lr = d :: tl ∧ d.hasP = Option.none) →
        process_results pr lrs ≠ .ok rep) := by
  refine ⟨?_, ?_, ?_⟩
  · intro d hp
    cases he : coerceMetric d.HasEtc with
    | error e => exact ⟨e, by simp [LotStats.from_lot_data, he]⟩
    | ok a =>
      cases hb : coerceMetric d.HasB with
      | error e => exact ⟨e, by simp [LotStats.from_lot_data, he, hb]⟩
      | ok b =>
        cases hu : coerceMetric d.HasEuC with
        | error e => exact ⟨e, by simp [LotStats.from_lot_data, he, hb, hu]⟩
        | ok u =>
          exact ⟨.missingKey "hasP", by simp [LotStats.from_lot_data, he, hb, hu, hp]⟩
  · intro d he hb hu hp h1 h2 h3
    simp [LotStats.from_lot_data, h1, h2, h3, hp]
  · intro pr lrs rep hex hok
    obtain ⟨lr, hmem, d, tl, hd, hp⟩ := hex
    obtain ⟨lots, hbl, _⟩ := process_results_ok hok
    obtain ⟨s, hs⟩ := buildLots_ok_heads hbl lr hmem d tl hd
    have hid := (from_lot_data_ok hs).2.2.2
    rw [hp] at hid
    exact Option.noConfusion hid

/-- Concrete instances of the amended claim C2: the build of a `hasP`-less
entity fails with the `KeyError`, and a run containing it yields no report. -/
theorem claim_C2_amended_witness :
    (∃ e, LotStats.from_lot_data lotNoKey = .error e) ∧
    LotStats.from_lot_data lotNoKey = .error (.missingKey "hasP") ∧
    process_results emptyResult [wrapLot lotNoKey] ≠ .ok reportC6 :=
  ⟨claim_C2_amended.1 lotNoKey rfl,
   claim_C2_amended.2.1 lotNoKey Option.none Option.none Option.none rfl
     (by decide) (by decide) (by decide),
   claim_C2_amended.2.2 emptyResult [wrapLot lotNoKey] reportC6
     ⟨wrapLot lotNoKey, List.mem_singleton.mpr rfl, lotNoKey, [], rfl, rfl⟩⟩

/-- Claim C3: for every sequence of `LotStats` and each of the three
metrics, the computed average equals the arithmetic mean (`specMean`) of
exactly the non-absent values of that metric; `specMean` of an empty value
list is the explicit absent value `Option.none` (never zero or NaN), which
covers the all-absent (count = 0) case. -/
theorem claim_C3_averages_are_means (lots : List LotStats) :
    (calculate_averages lots).HasEtc_avg = specMean (lots.filterMap (·.has_etc)) ∧
    (calculate_averages lots).HasB_avg = specMean (lots.filterMap (·.has_b)) ∧
    (calculate_averages lots).HasEuC_avg = specMean (lots.filterMap (·.has_euc)) ∧
    specMean ([] : List ℚ) = Option.none := by
  simp [calculate_averages_eq, specMean]

/-- Claim C4: when the envelope nesting is absent (`data` missing, or
`metatypes` missing) in the product result and in every lot result, the
composer treats everything as zero entities and succeeds with the empty
report; no error of any kind (in particular no malformed-envelope error,
a constructor `BuildError` deliberately lacks) is raised. -/
theorem claim_C4_missing_envelope (pr : QueryResult) (lrs : List QueryResult)
    (hpr : noEnvelope pr) (hlrs : ∀ lr ∈ lrs, noEnvelope lr) :
    getProducts pr = [] ∧
    process_results pr lrs = .ok
      { products := 0
        product_details := []
        product_averages_HasD := Option.none
        lots_total := 0
        lots_with_values := 0
        lot_averages_HasEtc := Option.none
        lot_averages_HasB := Option.none
        lot_averages_HasEuC := Option.none
        lot_details := [] } := by
  have hp := getProducts_of_noEnvelope hpr
  have hb : ∀ ls : List QueryResult, (∀ lr ∈ ls, noEnvelope lr) → buildLots ls = .ok [] := by
    intro ls
    induction ls with
    | nil => intro _; rfl
    | cons r rs ih =>
      intro h
      have hr := getLots_of_noEnvelope (h r (List.mem_cons_self r rs))
      have htail := ih (fun x hx => h x (List.mem_cons_of_mem r hx))
      simp [buildLots, hr, htail]
  refine ⟨hp, ?_⟩
  simp [process_results, hp, hb lrs hlrs, calculate_averages]

/-- Concrete instance of claim C4: missing `data` key on the product side,
missing `metatypes` key on the lot side. -/
theorem claim_C4_witness :
    getProducts emptyResult = [] ∧
    process_results emptyResult [⟨some ⟨Option.none⟩⟩] = .ok
      { products := 0
        product_details := []
        product_averages_HasD := Option.none
        lots_total := 0
        lots_with_values := 0
        lot_averages_HasEtc := Option.none
        lot_averages_HasB := Option.none
        lot_averages_HasEuC := Option.none
        lot_details := [] } :=
  claim_C4_missing_envelope emptyResult [⟨some ⟨Option.none⟩⟩] (Or.inl rfl)
    (by
      intro lr hlr
      simp only [List.mem_singleton] at hlr
      subst hlr
      exact Or.inr ⟨⟨Option.none⟩, rfl, rfl⟩)

/-- Claim C5: the key-extraction stage - truthy `HasP` values collected in
product order by `extract_has_p_values` (products without a join key are
skipped), then deduplicated by `query_lots` via `dict.fromkeys` - yields a
list without duplicates that keeps first-occurrence order
(`specFirstOccurDedup`), and on the spec's example `["A","B","A","C"]`
yields `["A","B","C"]`. -/
theorem claim_C5_key_extraction :
    (∀ pr : QueryResult,
      (dedupFirst (extract_has_p_values pr)).Nodup ∧
      dedupFirst (extract_has_p_values pr)
        = specFirstOccurDedup (extract_has_p_values pr) ∧
      extract_has_p_values pr = (getProducts pr).filterMap keyOf) ∧
    dedupFirst [PyVal.str "A", PyVal.str "B", PyVal.str "A", PyVal.str "C"]
      = [PyVal.str "A", PyVal.str "B", PyVal.str "C"] := by
  refine ⟨fun pr => ⟨?_, dedupFirst_eq_spec _, extractKeys_eq _⟩, by decide⟩
  rw [dedupFirst_eq_spec]
  exact nodup_specFirstOccurDedup _

lemma foldl_hasD (ps : List ProductData) (acc : ℚ × ℕ) :
    (ps.foldl hasDStep acc).1 = acc.1 + (ps.filterMap hasDValue).sum ∧
    (ps.foldl hasDStep acc).2 = acc.2 + (ps.filterMap hasDValue).length := by
  induction ps generalizing acc with
  | nil => simp
  | cons p ps ih =>
    have h := ih (hasDStep acc p)
    by_cases hv : truthy (p.HasD.getD .none)
    · cases hf : toFloat (p.HasD.getD .none) with
      | none => simp_all [hasDStep, hasDValue, hv, hf, List.filterMap_cons]
      | some q =>
        simp_all [hasDStep, hasDValue, hv, hf, List.filterMap_cons, add_assoc,
          Nat.add_comm]
    · simp_all [hasDStep, hasDValue, hv, List.filterMap_cons]

/-- The lenient `HasD` average computed by `process_results` is the mean of
the convertible truthy `HasD` values. -/
lemma hasD_avg_eq (ps : List ProductData) :
    (if 0 < (ps.foldl hasDStep (0, 0)).2 then
        some ((ps.foldl hasDStep (0, 0)).1 / (((ps.foldl hasDStep (0, 0)).2 : ℕ) : ℚ))
      else Option.none)
      = specMean (ps.filterMap hasDValue) := by
  have h := foldl_hasD ps (0, 0)
  rw [specMean, h.1, h.2]
  simp

/-- Claim C6: in every successfully produced report, the lot-side figures
are computed from exactly the first Lot entity of each raw result that has
at least one entity (`buildAll` over the heads): later entities in the same
result are ignored, and a zero-entity result adds nothing to `lots_total`,
to `lot_details`, or to the averages. -/
theorem claim_C6_first_entity_only (pr : QueryResult) (lrs : List QueryResult) (rep : Report)
    (h : process_results pr lrs = .ok rep) :
    ∃ lots, buildAll (lrs.filterMap (fun r => (getLots r).head?)) = .ok lots ∧
      rep.lots_total = lots.length ∧
      rep.lot_details = lots.map LotStats.to_dict ∧
      rep.lots_with_values = lots.countP (·.has_values) ∧
      rep.lot_averages_HasEtc = specMean (lots.filterMap (·.has_etc)) ∧
      rep.lot_averages_HasB = specMean (lots.filterMap (·.has_b)) ∧
      rep.lot_averages_HasEuC = specMean (lots.filterMap (·.has_euc)) := by
  obtain ⟨lots, hb, hrep⟩ := process_results_ok h
  subst hrep
  rw [← buildLots_eq_buildAll]
  exact ⟨lots, hb, by simp [calculate_averages_eq], by rfl,
    by simp [calculate_averages_eq], by simp [calculate_averages_eq],
    by simp [calculate_averages_eq], by simp [calculate_averages_eq]⟩

/-- Concrete instance of claim C6: a two-entity result followed by an
empty result yields one lot record, built from the first entity. -/
theorem claim_C6_witness :
    ∃ lots, buildAll (lotResultsC6.filterMap (fun r => (getLots r).head?)) = .ok lots ∧
      reportC6.lots_total = lots.length ∧
      reportC6.lot_details = lots.map LotStats.to_dict ∧
      reportC6.lots_with_values = lots.countP (·.has_values) ∧
      reportC6.lot_averages_HasEtc = specMean (lots.filterMap (·.has_etc)) ∧
      reportC6.lot_averages_HasB = specMean (lots.filterMap (·.has_b)) ∧
      reportC6.lot_averages_HasEuC = specMean (lots.filterMap (·.has_euc)) :=
  claim_C6_first_entity_only emptyResult lotResultsC6 reportC6 (by decide)

/-- Claim C7: (1) in every produced report, the product-side `HasD` average
is the mean over exactly the products whose `HasD` is present, truthy and
convertible (`hasDValue`), so malformed values are skipped; (2) the
computation never aborts because of the product side - a failing run fails
with an error determined by the lot results alone; (3) by contrast, on the
Lot side a truthy non-convertible metric value fails the record build. -/
theorem claim_C7_product_avg_lenient :
    (∀ (pr : QueryResult) (lrs : List QueryResult) (rep : Report),
      process_results pr lrs = .ok rep →
        rep.product_averages_HasD = specMean ((getProducts pr).filterMap hasDValue)) ∧
    (∀ (pr1 pr2 : QueryResult) (lrs : List QueryResult) (e : BuildError),
      process_results pr1 lrs = .error e → process_results pr2 lrs = .error e) ∧
    (∀ (d : LotData) (v : PyVal),
      d.HasEtc = some v → truthy v = true → toFloat v = Option.none →
        LotStats.from_lot_data d = .error (.conversionError v)) := by
  refine ⟨?_, ?_, ?_⟩
  · intro pr lrs rep h
    obtain ⟨lots, hb, hrep⟩ := process_results_ok h
    subst hrep
    exact hasD_avg_eq (getProducts pr)
  · intro pr1 pr2 lrs e h
    exact process_results_error.2 (process_results_error.1 h)
  · intro d v hd htr hf
    simp [LotStats.from_lot_data, coerceMetric, hd, htr, hf]

/-- Concrete instance of claim C7: products with `HasD` values `"10"`
(kept), `"x"` (malformed, skipped with a warning) and absent (skipped)
average to 10; a malformed product never causes an error, while a Lot with
the same malformed metric string fails its build. -/
theorem claim_C7_witness :
    reportC7.product_averages_HasD
        = specMean ((getProducts prodResultC7).filterMap hasDValue) ∧
    process_results prodResultC7 [wrapLot lotBadEtc]
        = .error (.conversionError (.str "x")) ∧
    LotStats.from_lot_data lotBadEtc = .error (.conversionError (.str "x")) :=
  ⟨claim_C7_product_avg_lenient.1 prodResultC7 [] reportC7 (by
      have h1 : truthy (PyVal.str "10") = true := by decide
      have h2 : toFloat (PyVal.str "10") = some 10 := by decide
      have h3 : truthy (PyVal.str "x") = true := by decide
      have h4 : toFloat (PyVal.str "x") = Option.none := by decide
      have h5 : truthy PyVal.none = false := by decide
      simp [process_results, prodResultC7, wrapProducts, getProducts, hasDStep,
        buildLots, calculate_averages, productDetail, prodGoodD, prodBadD,
        prodNoD, reportC7, h1, h2, h3, h4, h5]),
   claim_C7_product_avg_lenient.2.1 emptyResult prodResultC7 [wrapLot lotBadEtc]
     (.conversionError (.str "x")) (by decide),
   claim_C7_product_avg_lenient.2.2 lotBadEtc (.str "x") rfl (by decide) (by decide)⟩

/-- Claim C8: for every sequence of lot records the aggregate satisfies
`lots_with_values ≤ total_lots`, and consequently every produced report
satisfies `lots.with_values ≤ lots.total`. -/
theorem claim_C8_with_values_le_total :
    (∀ lots : List LotStats,
      (calculate_averages lots).lots_with_values ≤ (calculate_averages lots).total_lots) ∧
    (∀ (pr : QueryResult) (lrs : List QueryResult) (rep : Report),
      process_results pr lrs = .ok rep → rep.lots_with_values ≤ rep.lots_total) := by
  have hagg : ∀ lots : List LotStats,
      (calculate_averages lots).lots_with_values ≤ (calculate_averages lots).total_lots := by
    intro lots
    simp only [calculate_averages_eq]
    exact List.countP_le_length _
  refine ⟨hagg, ?_⟩
  intro pr lrs rep h
  obtain ⟨lots, hb, hrep⟩ := process_results_ok h
  subst hrep
  exact hagg lots

/-- Concrete instance of claim C8 on a produced report. -/
theorem claim_C8_witness : reportC6.lots_with_values ≤ reportC6.lots_total :=
  claim_C8_with_values_le_total.2 emptyResult lotResultsC6 reportC6 (by decide)

/-- Claim C9: the aggregation is permutation-invariant - any reordering of
the lot records yields the same `Averages` (exactly, since the model sums
in `ℚ`, where addition is commutative). -/
theorem claim_C9_permutation_invariant (l1 l2 : List LotStats) (h : l1.Perm l2) :
    calculate_averages l1 = calculate_averages l2 := by
  rw [calculate_averages_eq, calculate_averages_eq]
  have he := h.filterMap (·.has_etc)
  have hb := h.filterMap (·.has_b)
  have hu := h.filterMap (·.has_euc)
  simp [specMean, he.sum_eq, he.length_eq, hb.sum_eq, hb.length_eq,
    hu.sum_eq, hu.length_eq, h.length_eq, h.countP_eq (·.has_values)]

/-- Concrete instance of claim C9 on a two-element swap. -/
theorem claim_C9_witness :
    calculate_averages [statsA, statsB] = calculate_averages [statsB, statsA] :=
  claim_C9_permutation_invariant [statsA, statsB] [statsB, statsA]
    (List.Perm.swap statsB statsA [])

/-- Claim C10: the emitted product details apply `productDetail` to every
product, and its `id`: a `_record` present with `original_id` mapped to
Python `None` yields `id = None` (not the sentinel); the sentinel
`"Unknown"` is substituted exactly when the `_record` key or the
`original_id` key is missing entirely. -/
theorem claim_C10_null_id :
    (∀ (pr : QueryResult) (lrs : List QueryResult) (rep : Report),
      process_results pr lrs = .ok rep →
        rep.product_details = (getProducts pr).map productDetail) ∧
    (∀ (p : ProductData) (r : RecordData),
      p._record = some r → r.original_id = some PyVal.none →
        (productDetail p).id = PyVal.none) ∧
    (∀ p : ProductData,
      p._record = Option.none → (productDetail p).id = PyVal.str "Unknown") ∧
    (∀ (p : ProductData) (r : RecordData),
      p._record = some r → r.original_id = Option.none →
        (productDetail p).id = PyVal.str "Unknown") := by
  refine ⟨?_, ?_, ?_, ?_⟩
  · intro pr lrs rep h
    obtain ⟨lots, hb, hrep⟩ := process_results_ok h
    subst hrep
    rfl
  · intro p r h1 h2
    simp [productDetail, h1, h2]
  · intro p h1
    simp [productDetail, h1]
  · intro p r h1 h2
    simp [productDetail, h1, h2]

/-- Concrete instance of claim C10: a present `_record` with a null
`original_id` emits `id = None`, while a missing `_record` or a missing
`original_id` key emits the sentinel. -/
theorem claim_C10_witness :
    reportC10.product_details = (getProducts prodResultC10).map productDetail ∧
    (productDetail prodNullId).id = PyVal.none ∧
    (productDetail prodNoRecord).id = PyVal.str "Unknown" ∧
    (productDetail prodNoId).id = PyVal.str "Unknown" :=
  ⟨claim_C10_null_id.1 prodResultC10 [] reportC10 (by decide),
   claim_C10_null_id.2.1 prodNullId ⟨some PyVal.none⟩ rfl rfl,
   claim_C10_null_id.2.2.1 prodNoRecord rfl,
   claim_C10_null_id.2.2.2 prodNoId ⟨Option.none⟩ rfl rfl⟩
